import Mathlib

set_option maxRecDepth 100000
set_option maxHeartbeats 8000000

/-!
Verification development for the SWAP accounting engine of the swarm
repository: per-peer balance ledger, cheque encoding and signature
verification, contract verification, and the swap protocol run loop.

Source files embedded: the swap protocol driver (protocol.go) and the
swap test suite; operations whose implementation is not part of the
given sources are modelled from the specification, as marked in their
doc comments.
-/

namespace Swarm

/-! ## Byte and 64-bit word utilities -/

/-- All-ones 64-bit mask. -/
def mask64 : Nat := 0xFFFFFFFFFFFFFFFF

/-- Rotate a 64-bit word left by `n` (for `n < 64`). -/
def rotl64 (v n : Nat) : Nat :=
  ((v <<< n) ||| (v >>> (64 - n))) % 2 ^ 64

/-- Little-endian interpretation of a byte list as one word. -/
def bytesToLane (bs : List Nat) : Nat :=
  bs.foldr (fun b acc => b + 256 * acc) 0

/-- The `k` low-order bytes of `v`, little-endian. -/
def laneToBytes : Nat → Nat → List Nat
  | 0, _ => []
  | k + 1, v => v % 256 :: laneToBytes k (v / 256)

/-- Big-endian fixed-width byte representation of a number. -/
def beBytes : Nat → Nat → List Nat
  | 0, _ => []
  | k + 1, v => beBytes k (v / 256) ++ [v % 256]

/-- Big-endian interpretation of a byte list as one number. -/
def natOfBe (bs : List Nat) : Nat :=
  bs.foldl (fun acc b => acc * 256 + b) 0

/-! ## Keccak-256

Modelled from the spec: `sigHashCheque` (not under the given sources)
computes "a cryptographic hash (Keccak-256 or equivalent)" of the cheque
encoding; this is the standard Keccak-256 sponge (rate 1088, capacity 512,
multi-rate padding), as used by `crypto.Keccak256`. -/

/-- Lane read with default 0. -/
def laneAt (st : List Nat) (i : Nat) : Nat := st.getD i 0

/-- One step of the degree-8 LFSR (polynomial `x^8 + x^6 + x^5 + x^4 + 1`)
that generates the Keccak round-constant bit sequence. -/
def keccakLfsr (r : Nat) : Nat :=
  if r * 2 < 256 then r * 2 else r * 2 ^^^ 0x171

/-- Iterate the LFSR from its initial state 1. -/
def keccakLfsrIter : Nat → Nat
  | 0 => 1
  | t + 1 => keccakLfsr (keccakLfsrIter t)

/-- Bit `t` of the Keccak round-constant sequence. -/
def keccakRcBit (t : Nat) : Nat := keccakLfsrIter t % 2

/-- The 24 Keccak round constants: round `i` sets bit `2^j - 1` to
`rc(j + 7*i)` for `j = 0..6`. -/
def keccakRC : List Nat :=
  (List.range 24).map fun i =>
    (List.range 7).foldl (fun acc j => acc ||| keccakRcBit (j + 7 * i) <<< (2 ^ j - 1)) 0

/-- The assignments of the Keccak rho rotation offsets: starting from
lane `(1, 0)`, step `t` gives the current lane offset
`(t+1)*(t+2)/2 mod 64` and moves `(x, y)` to `(y, (2x+3y) mod 5)`. -/
def keccakRhoPairs : Nat → Nat → Nat → Nat → List (Nat × Nat)
  | 0, _, _, _ => []
  | fuel + 1, t, x, y =>
      (x + 5 * y, (t + 1) * (t + 2) / 2 % 64) ::
        keccakRhoPairs fuel (t + 1) y ((2 * x + 3 * y) % 5)

/-- Keccak rho rotation offset of lane `x + 5*y` (lane `(0, 0)` rotates
by 0). -/
def keccakRhoOffset (i : Nat) : Nat :=
  ((keccakRhoPairs 24 0 1 0).lookup i).getD 0

/-- Keccak theta step. -/
def keccakTheta (st : List Nat) : List Nat :=
  let c := (List.range 5).map fun x =>
    laneAt st x ^^^ laneAt st (x + 5) ^^^ laneAt st (x + 10) ^^^
      laneAt st (x + 15) ^^^ laneAt st (x + 20)
  let d := (List.range 5).map fun x =>
    laneAt c ((x + 4) % 5) ^^^ rotl64 (laneAt c ((x + 1) % 5)) 1
  (List.range 25).map fun i => laneAt st i ^^^ laneAt d (i % 5)

/-- Keccak rho and pi steps combined (output lane `(xp, yp)` comes from
input lane `((xp + 3*yp) % 5, xp)` rotated by its rho offset). -/
def keccakRhoPi (st : List Nat) : List Nat :=
  (List.range 25).map fun j =>
    let xp := j % 5
    let yp := j / 5
    let x := (xp + 3 * yp) % 5
    let i := x + 5 * xp
    rotl64 (laneAt st i) (keccakRhoOffset i)

/-- Keccak chi step. -/
def keccakChi (st : List Nat) : List Nat :=
  (List.range 25).map fun j =>
    let x := j % 5
    let y := j / 5
    laneAt st j ^^^
      ((laneAt st ((x + 1) % 5 + 5 * y) ^^^ mask64) &&& laneAt st ((x + 2) % 5 + 5 * y))

/-- Keccak iota step. -/
def keccakIota (st : List Nat) (rc : Nat) : List Nat :=
  match st with
  | [] => []
  | h :: t => (h ^^^ rc) :: t

/-- One Keccak-f[1600] round. -/
def keccakRound (st : List Nat) (rc : Nat) : List Nat :=
  keccakIota (keccakChi (keccakRhoPi (keccakTheta st))) rc

/-- The Keccak-f[1600] permutation (24 rounds). -/
def keccakF (st : List Nat) : List Nat :=
  keccakRC.foldl keccakRound st

/-- Multi-rate padding to a multiple of the 136-byte rate. -/
def keccakPad (msg : List Nat) : List Nat :=
  let r := 136 - msg.length % 136
  if r = 1 then msg ++ [0x81]
  else msg ++ [0x01] ++ List.replicate (r - 2) 0 ++ [0x80]

/-- Split a 136-byte block into 17 little-endian lanes. -/
def blockLanes : Nat → List Nat → List Nat
  | 0, _ => []
  | k + 1, bs => bytesToLane (bs.take 8) :: blockLanes k (bs.drop 8)

/-- Xor a block of 17 lanes into the front of the 25-lane state. -/
def xorIntoState (st lanes : List Nat) : List Nat :=
  List.zipWith (fun a b => a ^^^ b) st (lanes ++ List.replicate 8 0)

/-- Absorb `k` 136-byte blocks. -/
def keccakAbsorb : Nat → List Nat → List Nat → List Nat
  | 0, st, _ => st
  | k + 1, st, bs =>
      keccakAbsorb k (keccakF (xorIntoState st (blockLanes 17 (bs.take 136)))) (bs.drop 136)

/-- Keccak-256 of a byte list: pad, absorb, squeeze 32 bytes. -/
def keccak256 (msg : List Nat) : List Nat :=
  let padded := keccakPad msg
  let st := keccakAbsorb (padded.length / 136) (List.replicate 25 0) padded
  laneToBytes 8 (laneAt st 0) ++ laneToBytes 8 (laneAt st 1) ++
    laneToBytes 8 (laneAt st 2) ++ laneToBytes 8 (laneAt st 3)

/-! ## secp256k1 and recoverable ECDSA

Modelled from the spec: `verifyChequeSig` (not under the given sources)
"recovers the signer's address from `sigHash(cheque)` and the signature"
using "the standard recoverable-ECDSA scheme used by the target chain
(secp256k1)"; this is standard public-key recovery over the secp256k1
curve, followed by the Keccak-based Ethereum address derivation. -/

/-- The secp256k1 base field prime. -/
def secpP : Nat :=
  0xFFFFFFFFFFFFFFFFFFFFFFFFFFFFFFFFFFFFFFFFFFFFFFFFFFFFFFFEFFFFFC2F

/-- The secp256k1 group order. -/
def secpN : Nat :=
  0xFFFFFFFFFFFFFFFFFFFFFFFFFFFFFFFEBAAEDCE6AF48A03BBFD25E8CD0364141

/-- x-coordinate of the secp256k1 generator. -/
def secpGx : Nat :=
  0x79BE667EF9DCBBAC55A06295CE870B07029BFCDB2DCE28D959F2815B16F81798

/-- y-coordinate of the secp256k1 generator. -/
def secpGy : Nat :=
  0x483ADA7726A3C4655DA4FBFC0E1108A8FD17B448A68554199C47D08FFB10D4B8

/-- Addition in the base field. -/
def fadd (a b : Nat) : Nat := (a + b) % secpP

/-- Multiplication in the base field. -/
def fmul (a b : Nat) : Nat := a * b % secpP

/-- Subtraction in the base field (inputs already reduced mod `secpP`). -/
def fsub (a b : Nat) : Nat := (a + (secpP - b)) % secpP

/-- Modular exponentiation by repeated squaring, with enough fuel for
256-bit exponents. -/
def powModAux (m : Nat) : Nat → Nat → Nat → Nat → Nat
  | 0, _, _, acc => acc
  | f + 1, b, e, acc =>
      powModAux m f (b * b % m) (e / 2) (if e % 2 = 1 then acc * b % m else acc)

/-- `powMod m b e = b ^ e % m` for `e < 2 ^ 256`. -/
def powMod (m b e : Nat) : Nat := powModAux m 256 (b % m) e 1

/-- A point in Jacobian coordinates; `z = 0` encodes the point at infinity. -/
structure Jac where
  x : Nat
  y : Nat
  z : Nat
deriving DecidableEq

/-- The point at infinity. -/
def jacZero : Jac := ⟨1, 1, 0⟩

/-- Point doubling in Jacobian coordinates (curve `y^2 = x^3 + 7`). -/
def jacDouble (pt : Jac) : Jac :=
  if pt.z = 0 ∨ pt.y = 0 then jacZero
  else
    let a := fmul pt.x pt.x
    let b := fmul pt.y pt.y
    let c := fmul b b
    let s := fmul 4 (fmul pt.x b)
    let m := fmul 3 a
    let x3 := fsub (fmul m m) (fmul 2 s)
    let y3 := fsub (fmul m (fsub s x3)) (fmul 8 c)
    let z3 := fmul 2 (fmul pt.y pt.z)
    ⟨x3, y3, z3⟩

/-- Point addition in Jacobian coordinates. -/
def jacAdd (p1 p2 : Jac) : Jac :=
  if p1.z = 0 then p2
  else if p2.z = 0 then p1
  else
    let z1z1 := fmul p1.z p1.z
    let z2z2 := fmul p2.z p2.z
    let u1 := fmul p1.x z2z2
    let u2 := fmul p2.x z1z1
    let s1 := fmul p1.y (fmul z2z2 p2.z)
    let s2 := fmul p2.y (fmul z1z1 p1.z)
    if u1 = u2 then
      if s1 = s2 then jacDouble p1 else jacZero
    else
      let h := fsub u2 u1
      let hh := fmul h h
      let hhh := fmul h hh
      let r := fsub s2 s1
      let v := fmul u1 hh
      let x3 := fsub (fsub (fmul r r) hhh) (fmul 2 v)
      let y3 := fsub (fmul r (fsub v x3)) (fmul s1 hhh)
      let z3 := fmul h (fmul p1.z p2.z)
      ⟨x3, y3, z3⟩

/-- Binary double-and-add ladder with explicit fuel. -/
def jacSmulAux : Nat → Nat → Jac → Jac → Jac
  | 0, _, _, acc => acc
  | f + 1, k, base, acc =>
      jacSmulAux f (k / 2) (jacDouble base)
        (if k % 2 = 1 then jacAdd acc base else acc)

/-- Scalar multiplication for 256-bit scalars. -/
def jacSmul (k : Nat) (pt : Jac) : Jac := jacSmulAux 256 k pt jacZero

/-- Conversion to affine coordinates; `none` for the point at infinity. -/
def toAffine (pt : Jac) : Option (Nat × Nat) :=
  if pt.z = 0 then none
  else
    let zi := powMod secpP pt.z (secpP - 2)
    let zi2 := fmul zi zi
    some (fmul pt.x zi2, fmul pt.y (fmul zi2 zi))

/-- Ethereum address of an affine public key: the last 20 bytes of the
Keccak-256 hash of the 64-byte big-endian (x, y) encoding. -/
def pubkeyToAddress (x y : Nat) : List Nat :=
  (keccak256 (beBytes 32 x ++ beBytes 32 y)).drop 12

/-- Recoverable-ECDSA public-key recovery: given the 256-bit message hash
`e`, signature components `r`, `s` and recovery id `recId`, returns the
Ethereum address of the signer, or `none` if recovery fails. -/
def ecRecover (e r s recId : Nat) : Option (List Nat) :=
  if r = 0 ∨ s = 0 ∨ secpN ≤ r ∨ secpN ≤ s ∨ 2 ≤ recId then none
  else
    let alpha := (r * r % secpP * r + 7) % secpP
    let y0 := powMod secpP alpha ((secpP + 1) / 4)
    if y0 * y0 % secpP ≠ alpha then none
    else
      let y := if y0 % 2 = recId % 2 then y0 else secpP - y0
      let rinv := powMod secpN r (secpN - 2)
      let u1 := (secpN - e % secpN * rinv % secpN) % secpN
      let u2 := s * rinv % secpN
      let q := jacAdd (jacSmul u1 ⟨secpGx, secpGy, 1⟩) (jacSmul u2 ⟨r, y, 1⟩)
      match toAffine q with
      | none => none
      | some (qx, qy) => some (pubkeyToAddress qx qy)

/-- The fixed test owner key from the test suite. -/
def ownerKeyNat : Nat :=
  0x634fb5a872396d9693e5c9f9d7233cfa93f395c093371017ff44aa9ae6564cdd

/-- The fixed test beneficiary key from the test suite. -/
def beneficiaryKeyNat : Nat :=
  0x6f05b0a29723ca69b1fc65d11752cee22c200cf3d2938e670547f7ae525be112

/-- Ethereum address derived from a private key (as in
`crypto.PubkeyToAddress(key.PublicKey)`). -/
def addressOfKey (d : Nat) : List Nat :=
  match toAffine (jacSmul d ⟨secpGx, secpGy, 1⟩) with
  | none => []
  | some (qx, qy) => pubkeyToAddress qx qy

/-- `ownerAddress` of the test suite, derived from `ownerKey`. -/
def ownerAddress : List Nat := addressOfKey ownerKeyNat

/-- `beneficiaryAddress` of the test suite, derived from `beneficiaryKey`. -/
def beneficiaryAddress : List Nat := addressOfKey beneficiaryKeyNat

/-! ## Cheques -/

/-- The parameter fields of a cheque, as in the source `ChequeParams`
(addresses are 20-byte lists, numeric fields are 64-bit values). -/
structure ChequeParams where
  Contract : List Nat
  Serial : Nat
  Amount : Nat
  Timeout : Nat
  Beneficiary : List Nat
deriving DecidableEq

/-- A cheque: parameters plus a 65-byte signature, as in the source `Cheque`. -/
structure Cheque extends ChequeParams where
  Sig : List Nat
deriving DecidableEq

/-- The error taxonomy of the swap core (source error values:
`ErrorNotFound`, `ErrEmptyAddressInSignature`, `cswap.ErrNotASwapContract`,
the invalid-cheque-signature error, and the serial/amount regression
rejection). -/
inductive SwapErr where
  | errorNotFound
  | emptyAddressInSignature
  | notASwapContract
  | invalidChequeSignature
  | serialOrAmountRegression
deriving DecidableEq

/-- Modelled from the spec: `encodeCheque` is not under the given sources.
The spec describes "a fixed-layout concatenation of the cheque's parameter
fields in a canonical byte order" with serial, amount and timeout as
32-byte big-endian words; the canonical order is fixed by the expected
bytes of `TestEncodeCheque` as contract, beneficiary, serial, amount,
timeout (the spec's listed order, contract, serial, amount, timeout,
beneficiary, contradicts that test vector and is kept separately below as
`encodeChequeSpecOrder`). -/
def encodeCheque (c : Cheque) : List Nat :=
  c.Contract ++ c.Beneficiary ++
    beBytes 32 c.Serial ++ beBytes 32 c.Amount ++ beBytes 32 c.Timeout

/-- The cheque encoding in the exact field order the spec's words list
(contract, serial as 32-byte big-endian, amount, timeout, beneficiary);
kept to compare against the source test vector. -/
def encodeChequeSpecOrder (c : Cheque) : List Nat :=
  c.Contract ++ beBytes 32 c.Serial ++ beBytes 32 c.Amount ++
    beBytes 32 c.Timeout ++ c.Beneficiary

/-- The 28-byte Ethereum signed-message prefix for 32-byte payloads
(the bytes of `\x19Ethereum Signed Message:\n32`). -/
def ethSignedMessagePrefix32 : List Nat :=
  [0x19, 0x45, 0x74, 0x68, 0x65, 0x72, 0x65, 0x75, 0x6d, 0x20, 0x53, 0x69,
   0x67, 0x6e, 0x65, 0x64, 0x20, 0x4d, 0x65, 0x73, 0x73, 0x61, 0x67, 0x65,
   0x3a, 0x0a, 0x33, 0x32]

/-- Modelled from the spec: `sigHashCheque` is not under the given sources.
The spec calls it "a cryptographic hash (Keccak-256 or equivalent) of
`encode(cheque)`"; the digest pinned by `TestSigHashCheque` fixes it as the
Keccak-256 hash of the Ethereum signed-message prefix followed by the
Keccak-256 hash of the encoding. -/
def sigHashCheque (c : Cheque) : List Nat :=
  keccak256 (ethSignedMessagePrefix32 ++ keccak256 (encodeCheque c))

/-- The contract address `0x4405415b2B8c9F9aA83E151637B8378dD3bcfEDD`
used by `newTestCheque`. -/
def contractAddrBytes : List Nat :=
  [0x44, 0x05, 0x41, 0x5b, 0x2b, 0x8c, 0x9f, 0x9a, 0xa8, 0x3e, 0x15, 0x16,
   0x37, 0xb8, 0x37, 0x8d, 0xd3, 0xbc, 0xfe, 0xdd]

/-- The test cheque built by `newTestCheque`: serial 1, amount 42,
timeout 10, beneficiary derived from the fixed test beneficiary key. -/
def newTestCheque : Cheque :=
  { Contract := contractAddrBytes
    Serial := 1
    Amount := 42
    Timeout := 10
    Beneficiary := beneficiaryAddress
    Sig := [] }

/-- The expected encoding bytes of `TestEncodeCheque` (computed through
truffle/js in the source). -/
def expectedChequeEncoding : List Nat :=
  [0x44, 0x05, 0x41, 0x5b, 0x2b, 0x8c, 0x9f, 0x9a, 0xa8, 0x3e, 0x15, 0x16,
   0x37, 0xb8, 0x37, 0x8d, 0xd3, 0xbc, 0xfe, 0xdd, 0xb8, 0xd4, 0x24, 0xe9,
   0x66, 0x2f, 0xe0, 0x83, 0x7f, 0xb1, 0xd7, 0x28, 0xf1, 0xac, 0x97, 0xce,
   0xbb, 0x10, 0x85, 0xfe, 0x00, 0x00, 0x00, 0x00, 0x00, 0x00, 0x00, 0x00,
   0x00, 0x00, 0x00, 0x00, 0x00, 0x00, 0x00, 0x00, 0x00, 0x00, 0x00, 0x00,
   0x00, 0x00, 0x00, 0x00, 0x00, 0x00, 0x00, 0x00, 0x00, 0x00, 0x00, 0x01,
   0x00, 0x00, 0x00, 0x00, 0x00, 0x00, 0x00, 0x00, 0x00, 0x00, 0x00, 0x00,
   0x00, 0x00, 0x00, 0x00, 0x00, 0x00, 0x00, 0x00, 0x00, 0x00, 0x00, 0x00,
   0x00, 0x00, 0x00, 0x00, 0x00, 0x00, 0x00, 0x2a, 0x00, 0x00, 0x00, 0x00,
   0x00, 0x00, 0x00, 0x00, 0x00, 0x00, 0x00, 0x00, 0x00, 0x00, 0x00, 0x00,
   0x00, 0x00, 0x00, 0x00, 0x00, 0x00, 0x00, 0x00, 0x00, 0x00, 0x00, 0x00,
   0x00, 0x00, 0x00, 0x0a]

/-- The expected signing digest of `TestSigHashCheque`. -/
def expectedSigHash : List Nat :=
  [0xe4, 0x31, 0xe8, 0x3b, 0xed, 0x10, 0x5c, 0xb6, 0x6d, 0x9a, 0xa5, 0x87,
   0x8c, 0xb0, 0x10, 0xbc, 0x21, 0x36, 0x5d, 0x2e, 0x32, 0x8c, 0xe7, 0xc3,
   0x66, 0x71, 0xf0, 0xcb, 0xd4, 0x40, 0x70, 0xae]

/-- The fixed 65-byte test signature `chequeSig` from the test suite. -/
def chequeSigBytes : List Nat :=
  [0xd9, 0x85, 0x61, 0x3f, 0x7d, 0x8b, 0xfc, 0xf0, 0xf9, 0x6f, 0x4b, 0xb0,
   0x0a, 0x21, 0x11, 0x1b, 0xeb, 0x9a, 0x67, 0x54, 0x77, 0xf4, 0x7e, 0x4d,
   0x9b, 0x79, 0xc8, 0x9f, 0x88, 0x0c, 0xf9, 0x9c, 0x5a, 0xb9, 0xef, 0x4c,
   0xde, 0xc7, 0x18, 0x6d, 0xeb, 0xc5, 0x1b, 0x89, 0x8f, 0xe4, 0xd0, 0x62,
   0xa8, 0x35, 0xde, 0x61, 0xfb, 0xa6, 0xdb, 0x39, 0x03, 0x16, 0xdb, 0x13,
   0xd5, 0x0d, 0x23, 0x94, 0x1c]

/-- Recovery id from the v byte of a stored signature (the source stores
v as 27 or 28). -/
def recIdOfV (v : Nat) : Nat := if 27 ≤ v then v - 27 else v

/-- The address recovered from a cheque's signature and signing digest,
or `none` when recovery fails. -/
def recoverChequeSigner (c : Cheque) : Option (List Nat) :=
  ecRecover (natOfBe (sigHashCheque c)) (natOfBe (c.Sig.take 32))
    (natOfBe ((c.Sig.drop 32).take 32)) (recIdOfV ((c.Sig.drop 64).headD 0))

/-- Modelled from the spec: `verifyChequeSig` is not under the given
sources. Per the spec it "recovers the signer's address from
`sigHash(cheque)` and the signature; fails with `InvalidSignature` if
recovery fails or the recovered address does not equal `expectedSigner`". -/
def verifyChequeSig (c : Cheque) (expectedSigner : List Nat) : Except SwapErr Unit :=
  match recoverChequeSigner c with
  | none => Except.error SwapErr.invalidChequeSignature
  | some addr =>
      if addr = expectedSigner then Except.ok ()
      else Except.error SwapErr.invalidChequeSignature

/-- The test cheque with the fixed test signature attached. -/
def signedTestCheque : Cheque :=
  { newTestCheque with Sig := chequeSigBytes }

/-- The test cheque with the mutated signature of
`TestVerifyChequeInvalidSignature` (byte 27 increased by 2). -/
def mutatedSigTestCheque : Cheque :=
  { newTestCheque with Sig := chequeSigBytes.set 27 0xa1 }

/-! ## Balance ledger and bookings

The accounting oracle `calculateExpectedBalances` is embedded from the
test suite; peers are identified by naturals, balances are signed
integers as in the source (`map[enode.ID]int64`). -/

/-- An accounting movement for a peer, as in the source `booking` struct:
a positive amount credits the local node with respect to `peer`, a
negative amount debits it. -/
structure Booking where
  amount : Int
  peer : Nat
deriving DecidableEq

/-- One step of the accounting oracle `calculateExpectedBalances`: the
booked amount is added to the peer's balance only while that balance is
strictly below the disconnect threshold ("balance is not expected to be
affected once past the disconnect threshold"). -/
def applyBooking (dt : Int) (bal : Nat → Int) (b : Booking) : Nat → Int :=
  fun q =>
    if q = b.peer then
      if bal b.peer < dt then bal b.peer + b.amount else bal b.peer
    else bal q

/-- The accounting oracle `calculateExpectedBalances` of the test suite,
as a map from peer ids to balances (absent peers sit at the map's zero
default, exactly as in the Go map). -/
def calculateExpectedBalances (dt : Int) (bs : List Booking) : Nat → Int :=
  bs.foldl (applyBooking dt) fun _ => 0

/-- The balance evolution in the words of the spec sentence under test:
past the threshold, debit amounts (amounts that push further past the
threshold, positive here) are discarded while credit amounts still apply. -/
def applyBookingSpecWords (dt : Int) (bal : Nat → Int) (b : Booking) : Nat → Int :=
  fun q =>
    if q = b.peer then
      if dt ≤ bal b.peer ∧ 0 < b.amount then bal b.peer else bal b.peer + b.amount
    else bal q

/-- Balance evolution following the spec sentence literally. -/
def specWordsExpectedBalances (dt : Int) (bs : List Booking) : Nat → Int :=
  bs.foldl (applyBookingSpecWords dt) fun _ => 0

/-- Sum of the booked amounts that the oracle actually applies for peer
`p`, starting from balances `bal`: an amount counts exactly when the
peer's running balance right before it is strictly below the threshold. -/
def appliedSum (dt : Int) (bal : Nat → Int) (bs : List Booking) (p : Nat) : Int :=
  match bs with
  | [] => 0
  | b :: rest =>
      (if b.peer = p ∧ bal b.peer < dt then b.amount else 0) +
        appliedSum dt (applyBooking dt bal b) rest p

/-- Association-list update: replace the entry for `p` or append one. -/
def insertBal (p : Nat) (v : Int) : List (Nat × Int) → List (Nat × Int)
  | [] => [(p, v)]
  | (q, w) :: rest => if q = p then (p, v) :: rest else (q, w) :: insertBal p v rest

/-- Modelled from the spec: `Swap.Add` is not under the given sources
(only its tests and the oracle above are). Per the spec and the oracle,
the booked amount is applied to the peer's stored balance unless that
balance has already reached the disconnect threshold, and the entry is
created on the peer's first booking. -/
def AddBooking (dt : Int) (balances : List (Nat × Int)) (b : Booking) : List (Nat × Int) :=
  insertBal b.peer
    (if ((balances.lookup b.peer).getD 0 : Int) < dt
     then ((balances.lookup b.peer).getD 0 : Int) + b.amount
     else ((balances.lookup b.peer).getD 0 : Int)) balances

/-- Apply a list of bookings to an empty ledger, as `addBookings` does in
the test suite. -/
def addBookings (dt : Int) (bs : List Booking) : List (Nat × Int) :=
  bs.foldl (AddBooking dt) []

/-- Modelled from the spec: `Swap.GetPeerBalance` is not under the given
sources. Per the spec it "returns the current balance; fails with
`NotFound` if no entry exists for the peer". -/
def GetPeerBalance (balances : List (Nat × Int)) (id : Nat) : Except SwapErr Int :=
  match balances.lookup id with
  | some v => Except.ok v
  | none => Except.error SwapErr.errorNotFound

/-- The peers that occur in a list of bookings. -/
def bookedPeers (bs : List Booking) : List Nat := bs.map Booking.peer

/-! ## Durable state store -/

/-- Modelled from the spec: the `state.NewDBStore` key-value store is not
under the given sources. It is "a key-value interface supporting
`put(key, value)`, `get(key) -> value`, and `close()`", keyed by peer
identifiers, holding signed 64-bit balances, every put being durably
persisted. The `disk` component is the durable content that survives a
close/reopen cycle. -/
structure DBStore where
  disk : List (Nat × Int)
deriving DecidableEq

/-- An empty store over an empty directory. -/
def newDBStore : DBStore := ⟨[]⟩

/-- `Put` durably records the value for the key. -/
def dbPut (st : DBStore) (k : Nat) (v : Int) : DBStore :=
  ⟨insertBal k v st.disk⟩

/-- `Close` releases the store, leaving only the durable contents. -/
def dbClose (st : DBStore) : List (Nat × Int) := st.disk

/-- Reopening a store over the same directory sees the durable contents. -/
def dbOpen (disk : List (Nat × Int)) : DBStore := ⟨disk⟩

/-- `Get` reads the value recorded for a key, if any. -/
def dbGet (st : DBStore) (k : Nat) : Option Int := st.disk.lookup k

/-! ## Contract verification -/

/-- Modelled from the spec: `Swap.verifyContract` is not under the given
sources. Per the spec it "fetches the deployed bytecode at `address` from
the blockchain-backend collaborator and compares it byte-for-byte against
the expected settlement-contract bytecode", returning the
not-a-settlement-contract error (`cswap.ErrNotASwapContract` in the test)
when the bytecode differs. `codeAt` is the backend's bytecode lookup and
`expectedCode` the compile-time expected bytecode. -/
def verifyContract (codeAt : Nat → List Nat) (expectedCode : List Nat)
    (addr : Nat) : Except SwapErr Unit :=
  if codeAt addr = expectedCode then Except.ok ()
  else Except.error SwapErr.notASwapContract

/-! ## Protocol state machine (embedded from protocol.go) -/

/-- The zero contract address (`common.Address{}`). -/
def zeroAddress : List Nat := List.replicate 20 0

/-- The three message types of the swap protocol `Spec`, as a tagged
union: the handshake message carrying a contract address, the emit-cheque
message, and the error message. -/
inductive Msg where
  | handshakeMsg (contractAddress : List Nat)
  | emitChequeMsg (cheque : Cheque)
  | errorMsg
deriving DecidableEq

/-- `Swap.verifyHandshake` from protocol.go: the type assertion to
`*HandshakeMsg` fails, or the declared contract address is the zero
address, gives `ErrEmptyAddressInSignature`; otherwise the contract
verifier `vc` is invoked on the declared address. -/
def verifyHandshake (vc : List Nat → Except SwapErr Unit) (msg : Msg) :
    Except SwapErr Unit :=
  match msg with
  | Msg.handshakeMsg addr =>
      if addr = zeroAddress then Except.error SwapErr.emptyAddressInSignature
      else vc addr
  | _ => Except.error SwapErr.emptyAddressInSignature

/-- `Swap.addPeer` from protocol.go: registers the peer id in the peer
set (a map keyed by peer id, so registration is idempotent). -/
def addPeer (peers : List Nat) (pid : Nat) : List Nat :=
  if pid ∈ peers then peers else pid :: peers

/-- `Swap.removePeer` from protocol.go: deletes the peer id from the
peer set. -/
def removePeer (peers : List Nat) (pid : Nat) : List Nat :=
  peers.filter fun q => q != pid

/-- The environment a session run interacts with: the remote handshake
answer, the contract verifier, the contract-owner query, and the result
the message loop (`swapPeer.Run`) eventually exits with. -/
structure RunEnv where
  remoteMsg : Msg
  vc : List Nat → Except SwapErr Unit
  contractOwner : List Nat → Except SwapErr (List Nat)
  loopResult : Except SwapErr Unit

deriving instance DecidableEq for Except

/-- The observable outcome of `Swap.run`: the peer set while the message
loop runs, whether the session reached the active (registered) state, the
peer set after `run` returns, and its error result. -/
structure RunOutcome where
  peersDuring : List Nat
  active : Bool
  peersAfter : List Nat
  result : Except SwapErr Unit
deriving DecidableEq

/-- The part of `Swap.run` after a successful handshake: query the
contract owner of the declared contract address as the remote
beneficiary (an owner-query failure returns before the peer is ever
registered), register the peer, run the message loop, and deregister the
peer (deferred) when the loop exits, whatever its result. -/
def runAfterHandshake (env : RunEnv) (peers : List Nat) (pid : Nat)
    (addr : List Nat) : RunOutcome :=
  match env.contractOwner addr with
  | Except.error e => ⟨peers, false, peers, Except.error e⟩
  | Except.ok _ =>
      ⟨addPeer peers pid, true, removePeer (addPeer peers pid) pid, env.loopResult⟩

/-- `Swap.run` from protocol.go: perform the handshake (which verifies
the remote contract address) and continue with `runAfterHandshake` on
the declared contract address; a handshake failure returns before the
peer is ever registered. -/
def run (env : RunEnv) (peers : List Nat) (pid : Nat) : RunOutcome :=
  match verifyHandshake env.vc env.remoteMsg with
  | Except.error e => ⟨peers, false, peers, Except.error e⟩
  | Except.ok _ =>
    match env.remoteMsg with
    | Msg.handshakeMsg addr => runAfterHandshake env peers pid addr
    | _ => ⟨peers, false, peers, Except.error SwapErr.emptyAddressInSignature⟩

/-! ## Helper lemmas -/

/-- Sanity vector: Keccak-256 of the empty message. -/
example : keccak256 [] =
    [0xc5, 0xd2, 0x46, 0x01, 0x86, 0xf7, 0x23, 0x3c, 0x92, 0x7e, 0x7d, 0xb2,
     0xdc, 0xc7, 0x03, 0xc0, 0xe5, 0x00, 0xb6, 0x53, 0xca, 0x82, 0x27, 0x3b,
     0x7b, 0xfa, 0xd8, 0x04, 0x5d, 0x85, 0xa4, 0x70] := by decide

/-- Once a peer's balance has reached the disconnect threshold, no
further booking changes it. -/
theorem foldl_applyBooking_clamped (dt : Int) :
    ∀ (bs : List Booking) (bal : Nat → Int) (p : Nat), dt ≤ bal p →
      List.foldl (applyBooking dt) bal bs p = bal p := by
  intro bs
  induction bs with
  | nil => intro bal p _; rfl
  | cons b rest ih =>
      intro bal p h
      have hstep : applyBooking dt bal b p = bal p := by
        simp only [applyBooking]
        by_cases hq : p = b.peer
        · subst hq
          rw [if_pos rfl, if_neg (by omega)]
        · rw [if_neg hq]
      rw [List.foldl_cons, ih (applyBooking dt bal b) p (by rw [hstep]; exact h), hstep]

/-- A balance after a run of bookings is the starting balance plus the
sum of the amounts the oracle applies. -/
theorem foldl_applyBooking_appliedSum (dt : Int) :
    ∀ (bs : List Booking) (bal : Nat → Int) (p : Nat),
      List.foldl (applyBooking dt) bal bs p = bal p + appliedSum dt bal bs p := by
  intro bs
  induction bs with
  | nil => intro bal p; simp [appliedSum]
  | cons b rest ih =>
      intro bal p
      rw [List.foldl_cons, ih]
      have hstep : applyBooking dt bal b p =
          bal p + (if b.peer = p ∧ bal b.peer < dt then b.amount else 0) := by
        simp only [applyBooking]
        by_cases hq : p = b.peer
        · rw [if_pos hq, hq]
          by_cases hlt : bal b.peer < dt
          · rw [if_pos hlt, if_pos ⟨rfl, hlt⟩]
          · rw [if_neg hlt, if_neg (by intro hc; exact hlt hc.2), add_zero]
        · rw [if_neg hq, if_neg (by intro hc; exact hq hc.1.symm), add_zero]
      rw [hstep]
      simp only [appliedSum]
      omega

/-- Looking up an association list after an update. -/
theorem lookup_insertBal (p : Nat) (v : Int) :
    ∀ (s : List (Nat × Int)) (q : Nat),
      (insertBal p v s).lookup q = if q = p then some v else s.lookup q := by
  intro s
  induction s with
  | nil =>
      intro q
      by_cases h : q = p
      · simp [insertBal, List.lookup, h]
      · simp [insertBal, List.lookup, h, beq_false_of_ne h]
  | cons hd tl ih =>
      intro q
      obtain ⟨k, w⟩ := hd
      simp only [insertBal]
      by_cases hk : k = p
      · subst hk
        rw [if_pos rfl]
        by_cases hq : q = k
        · simp [List.lookup, hq]
        · simp [List.lookup, hq, beq_false_of_ne hq]
      · rw [if_neg hk]
        by_cases hq : q = k
        · subst hq
          simp [List.lookup, hk]
        · simp [List.lookup, beq_false_of_ne hq, ih]

/-- The ledger built by `AddBooking` agrees with the accounting oracle:
a peer has an entry exactly when it was booked at least once or already
had one, and the entry holds the oracle's balance. -/
theorem lookup_foldl_AddBooking (dt : Int) :
    ∀ (bs : List Booking) (s : List (Nat × Int)) (p : Nat),
      (List.foldl (AddBooking dt) s bs).lookup p =
        if p ∈ bookedPeers bs ∨ (s.lookup p).isSome then
          some (List.foldl (applyBooking dt) (fun q => ((s.lookup q).getD 0 : Int)) bs p)
        else none := by
  intro bs
  induction bs with
  | nil =>
      intro s p
      simp only [List.foldl_nil, bookedPeers, List.map_nil, List.not_mem_nil, false_or]
      cases h : s.lookup p <;> simp [h]
  | cons b rest ih =>
      intro s p
      rw [List.foldl_cons, List.foldl_cons, ih]
      have hfun : (fun q => (((AddBooking dt s b).lookup q).getD 0 : Int)) =
          applyBooking dt (fun q => ((s.lookup q).getD 0 : Int)) b := by
        funext q
        simp only [AddBooking, applyBooking, lookup_insertBal]
        by_cases hq : q = b.peer
        · rw [if_pos hq, if_pos hq, Option.getD_some]
        · rw [if_neg hq, if_neg hq]
      rw [hfun]
      have hcond : (p ∈ bookedPeers (b :: rest) ∨ (s.lookup p).isSome) ↔
          (p ∈ bookedPeers rest ∨ ((AddBooking dt s b).lookup p).isSome) := by
        simp only [bookedPeers, List.map_cons, List.mem_cons, AddBooking, lookup_insertBal]
        by_cases hq : p = b.peer
        · simp [hq]
        · simp [hq, or_assoc]
      exact if_congr hcond.symm rfl rfl

/-- Every post-handshake continuation either aborts with an error and an
unchanged peer set, or goes active and passes the loop result through. -/
theorem runAfterHandshake_cases (env : RunEnv) (peers : List Nat) (pid : Nat)
    (addr : List Nat) :
    (∃ e, runAfterHandshake env peers pid addr =
      ⟨peers, false, peers, Except.error e⟩) ∨
    runAfterHandshake env peers pid addr =
      ⟨addPeer peers pid, true, removePeer (addPeer peers pid) pid, env.loopResult⟩ := by
  unfold runAfterHandshake
  cases env.contractOwner addr with
  | error e => exact Or.inl ⟨e, rfl⟩
  | ok benef => exact Or.inr rfl

/-- Every session run either aborts with an error and an unchanged peer
set, or goes active and passes the loop result through. -/
theorem run_cases (env : RunEnv) (peers : List Nat) (pid : Nat) :
    (∃ e, run env peers pid = ⟨peers, false, peers, Except.error e⟩) ∨
    run env peers pid =
      ⟨addPeer peers pid, true, removePeer (addPeer peers pid) pid, env.loopResult⟩ := by
  unfold run
  cases verifyHandshake env.vc env.remoteMsg with
  | error e => exact Or.inl ⟨e, rfl⟩
  | ok u =>
      cases env.remoteMsg with
      | handshakeMsg addr => exact runAfterHandshake_cases env peers pid addr
      | emitChequeMsg c => exact Or.inl ⟨SwapErr.emptyAddressInSignature, rfl⟩
      | errorMsg => exact Or.inl ⟨SwapErr.emptyAddressInSignature, rfl⟩

/-- A peer id is in the set after `addPeer` puts it there. -/
theorem mem_addPeer (peers : List Nat) (pid : Nat) : pid ∈ addPeer peers pid := by
  unfold addPeer
  by_cases h : pid ∈ peers <;> simp [h]

/-- A peer id is never in the set after `removePeer` deletes it. -/
theorem not_mem_removePeer (peers : List Nat) (pid : Nat) :
    pid ∉ removePeer peers pid := by
  unfold removePeer
  simp [List.mem_filter]

/-! ## Claim C1 -/

/-- C1, counterexample: with disconnect threshold 1, after a booking of
+1 the balance sits at the threshold; the oracle
`calculateExpectedBalances` (which the source test checks `Add` against)
then discards a following credit booking of -5 and keeps the balance at
1, while the claim ("credit amounts still apply") predicts -4. A
following booking of +3 is likewise discarded, so amounts of either sign
stop applying at the threshold. -/
theorem claimC1_counterexample :
    calculateExpectedBalances 1 [⟨1, 0⟩, ⟨-5, 0⟩] 0 = 1 ∧
    specWordsExpectedBalances 1 [⟨1, 0⟩, ⟨-5, 0⟩] 0 = -4 ∧
    calculateExpectedBalances 1 [⟨1, 0⟩, ⟨-5, 0⟩] 0 ≠
      specWordsExpectedBalances 1 [⟨1, 0⟩, ⟨-5, 0⟩] 0 ∧
    calculateExpectedBalances 1 [⟨1, 0⟩, ⟨3, 0⟩] 0 = 1 := by decide

/-- C1 (amended): for every sequence of bookings, the resulting balance
for a peer equals the sum of the amounts applied, where an amount (of
either sign) is applied exactly when the peer's running balance right
before it is strictly below the disconnect threshold; and once the
balance has reached or passed the threshold, any further bookings —
credits included — leave it unchanged. -/
theorem claimC1_balance_clamp (dt : Int) (bs ext : List Booking) (p : Nat) :
    calculateExpectedBalances dt bs p = appliedSum dt (fun _ => 0) bs p ∧
    (dt ≤ calculateExpectedBalances dt bs p →
      calculateExpectedBalances dt (bs ++ ext) p = calculateExpectedBalances dt bs p) := by
  constructor
  · have h := foldl_applyBooking_appliedSum dt bs (fun _ => 0) p
    simpa [calculateExpectedBalances] using h
  · intro h
    unfold calculateExpectedBalances at h ⊢
    rw [List.foldl_append]
    exact foldl_applyBooking_clamped dt ext _ p h

/-- C1, witness: the amended statement at the counterexample's inputs. -/
theorem claimC1_balance_clamp_witness :
    calculateExpectedBalances 1 [⟨1, 0⟩] 0 = appliedSum 1 (fun _ => 0) [⟨1, 0⟩] 0 ∧
    calculateExpectedBalances 1 ([⟨1, 0⟩] ++ [⟨-5, 0⟩, ⟨3, 0⟩]) 0 =
      calculateExpectedBalances 1 [⟨1, 0⟩] 0 :=
  ⟨(claimC1_balance_clamp 1 [⟨1, 0⟩] [⟨-5, 0⟩, ⟨3, 0⟩] 0).1,
   (claimC1_balance_clamp 1 [⟨1, 0⟩] [⟨-5, 0⟩, ⟨3, 0⟩] 0).2 (by decide)⟩

/-! ## Claim C2 -/

/-- C2, counterexample: the fixed expected encoding of the source test
`TestEncodeCheque` is 136 bytes long, not 118, and the field order the
claim states (contract, serial, amount, timeout, beneficiary) does not
produce it. -/
theorem claimC2_counterexample :
    expectedChequeEncoding.length = 136 ∧
    expectedChequeEncoding.length ≠ 118 ∧
    encodeChequeSpecOrder newTestCheque ≠ expectedChequeEncoding ∧
    (encodeChequeSpecOrder newTestCheque).length ≠ 118 := by decide

/-- C2 (amended): `encodeCheque` produces the fixed-layout concatenation
contract address (20 bytes), beneficiary address (20 bytes), serial as
32-byte big-endian, amount as 32-byte big-endian, timeout as 32-byte
big-endian; the test cheque (contract `0x4405...cfEDD`, serial 1, amount
42, timeout 10, fixed test beneficiary) encodes to the fixed 136-byte
string of `TestEncodeCheque` and its signing digest is the fixed 32-byte
digest of `TestSigHashCheque`. -/
theorem claimC2_encode :
    encodeCheque newTestCheque = expectedChequeEncoding ∧
    expectedChequeEncoding.length = 136 ∧
    sigHashCheque newTestCheque = expectedSigHash ∧
    expectedSigHash.length = 32 := by decide

/-! ## Claim C5 -/

/-- C5: `GetPeerBalance` fails with the not-found error for every peer
that was never booked, and returns exactly the oracle's accumulated
balance for every booked peer. -/
theorem claimC5_getBalance (dt : Int) (bs : List Booking) (p : Nat) :
    (p ∉ bookedPeers bs →
      GetPeerBalance (addBookings dt bs) p = Except.error SwapErr.errorNotFound) ∧
    (p ∈ bookedPeers bs →
      GetPeerBalance (addBookings dt bs) p =
        Except.ok (calculateExpectedBalances dt bs p)) := by
  have h := lookup_foldl_AddBooking dt bs [] p
  simp only [List.lookup, Option.isSome_none, Bool.false_eq_true, or_false] at h
  constructor
  · intro hp
    unfold GetPeerBalance addBookings
    rw [h, if_neg (by simpa using hp)]
  · intro hp
    unfold GetPeerBalance addBookings
    rw [h, if_pos (by simpa using hp)]
    rfl

/-- C5, witness: a single booking of 888 for peer 7 yields balance 888
for peer 7 and not-found for peer 3. -/
theorem claimC5_getBalance_witness :
    GetPeerBalance (addBookings 100 [⟨888, 7⟩]) 7 = Except.ok 888 ∧
    GetPeerBalance (addBookings 100 [⟨888, 7⟩]) 3 =
      Except.error SwapErr.errorNotFound :=
  ⟨((claimC5_getBalance 100 [⟨888, 7⟩] 7).2 (by decide)).trans (by decide),
   (claimC5_getBalance 100 [⟨888, 7⟩] 3).1 (by decide)⟩

/-! ## Claim C9 -/

/-- C9: persisting a balance for a key, closing the store, reopening it
and reading the same key returns the identical value, for every store
state, key and value. -/
theorem claimC9_restore (st : DBStore) (k : Nat) (v : Int) :
    dbGet (dbOpen (dbClose (dbPut st k v))) k = some v := by
  simp [dbGet, dbOpen, dbClose, dbPut, lookup_insertBal]

/-! ## Claim C4 -/

/-- C4: `verifyChequeSig` fails with the invalid-signature error exactly
when address recovery from the cheque's signing digest and signature
fails or the recovered address differs from the expected signer; the
fixed test signature verifies against the owner address, fails against
the beneficiary address (wrong signer), and fails after the single-byte
mutation of `TestVerifyChequeInvalidSignature`. -/
theorem claimC4_verify :
    (∀ (c : Cheque) (a : List Nat),
      verifyChequeSig c a = Except.error SwapErr.invalidChequeSignature ↔
        recoverChequeSigner c = none ∨
          ∃ r, recoverChequeSigner c = some r ∧ r ≠ a) ∧
    (verifyChequeSig signedTestCheque ownerAddress = Except.ok () ∧
     verifyChequeSig signedTestCheque beneficiaryAddress =
       Except.error SwapErr.invalidChequeSignature ∧
     verifyChequeSig mutatedSigTestCheque ownerAddress =
       Except.error SwapErr.invalidChequeSignature) := by
  constructor
  · intro c a
    unfold verifyChequeSig
    cases h : recoverChequeSigner c with
    | none => simp
    | some r =>
        by_cases hr : r = a
        · subst hr
          simp
        · simp [hr]
  · decide

/-- C4, witness: a cheque with an empty signature fails recovery, so
verification fails with the invalid-signature error. -/
theorem claimC4_verify_witness :
    verifyChequeSig newTestCheque ownerAddress =
      Except.error SwapErr.invalidChequeSignature :=
  (claimC4_verify.1 newTestCheque ownerAddress).mpr (Or.inl (by decide))

/-! ## Claim C6 -/

/-- A demonstration backend: the expected bytecode at address 1, an
unrelated contract at address 2, no code at address 3. -/
def demoBackend : Nat → List Nat :=
  fun a => if a = 1 then [7, 7, 7] else if a = 2 then [9] else []

/-- C6: `verifyContract` accepts an address whose deployed bytecode
equals the expected settlement-contract bytecode byte-for-byte, and
returns the not-a-settlement-contract error for every address whose
bytecode differs from it. -/
theorem claimC6_verifyContract (codeAt : Nat → List Nat) (expectedCode : List Nat)
    (addr : Nat) :
    (codeAt addr = expectedCode →
      verifyContract codeAt expectedCode addr = Except.ok ()) ∧
    (codeAt addr ≠ expectedCode →
      verifyContract codeAt expectedCode addr =
        Except.error SwapErr.notASwapContract) := by
  constructor <;> intro h <;> simp [verifyContract, h]

/-- C6, witness: the demonstration backend passes verification at the
deployed address and fails it at an unrelated contract and at an empty
address. -/
theorem claimC6_verifyContract_witness :
    verifyContract demoBackend [7, 7, 7] 1 = Except.ok () ∧
    verifyContract demoBackend [7, 7, 7] 2 =
      Except.error SwapErr.notASwapContract ∧
    verifyContract demoBackend [7, 7, 7] 3 =
      Except.error SwapErr.notASwapContract :=
  ⟨(claimC6_verifyContract demoBackend [7, 7, 7] 1).1 (by decide),
   (claimC6_verifyContract demoBackend [7, 7, 7] 2).2 (by decide),
   (claimC6_verifyContract demoBackend [7, 7, 7] 3).2 (by decide)⟩

/-! ## Claim C7 -/

/-- C7: on receiving the remote handshake message, the session fails
with the empty-address error whenever the remote declares the zero
contract address; otherwise the contract verifier is invoked on the
declared address, and a verifier failure makes `run` return that error
before the active state is reached and before the peer is ever
registered (the peer set is unchanged). -/
theorem claimC7_handshake (env : RunEnv) (peers : List Nat) (pid : Nat) :
    (env.remoteMsg = Msg.handshakeMsg zeroAddress →
      run env peers pid =
        ⟨peers, false, peers, Except.error SwapErr.emptyAddressInSignature⟩) ∧
    (∀ addr e, env.remoteMsg = Msg.handshakeMsg addr → addr ≠ zeroAddress →
      env.vc addr = Except.error e →
      run env peers pid = ⟨peers, false, peers, Except.error e⟩) := by
  constructor
  · intro h
    unfold run verifyHandshake
    rw [h]
    simp
  · intro addr e hmsg hz hvc
    unfold run verifyHandshake
    rw [hmsg]
    simp [hz, hvc]

/-- Handshake environment declaring the zero contract address. -/
def zeroAddrEnv : RunEnv :=
  ⟨Msg.handshakeMsg zeroAddress, fun _ => Except.ok (), fun _ => Except.ok [],
   Except.ok ()⟩

/-- Handshake environment whose declared contract fails verification. -/
def badContractEnv : RunEnv :=
  ⟨Msg.handshakeMsg [1], fun _ => Except.error SwapErr.notASwapContract,
   fun _ => Except.ok [], Except.ok ()⟩

/-- C7, witness: the zero-address handshake and the failed-verification
handshake both abort the run and leave the peer set unchanged. -/
theorem claimC7_handshake_witness :
    run zeroAddrEnv [5] 7 =
      ⟨[5], false, [5], Except.error SwapErr.emptyAddressInSignature⟩ ∧
    run badContractEnv [5] 7 =
      ⟨[5], false, [5], Except.error SwapErr.notASwapContract⟩ :=
  ⟨(claimC7_handshake zeroAddrEnv [5] 7).1 rfl,
   (claimC7_handshake badContractEnv [5] 7).2 [1] SwapErr.notASwapContract rfl
     (by decide) rfl⟩

/-! ## Claim C8 -/

/-- C8: whenever a session reaches the active state, its peer id is
registered in the peer set for the duration of the message loop and is
deregistered by the time `run` returns, whatever result the message loop
exits with (that result is passed through unchanged); when the active
state is never reached, the peer set is left exactly as it was. -/
theorem claimC8_registration (env : RunEnv) (peers : List Nat) (pid : Nat) :
    ((run env peers pid).active = true →
      pid ∈ (run env peers pid).peersDuring ∧
      pid ∉ (run env peers pid).peersAfter ∧
      (run env peers pid).result = env.loopResult) ∧
    ((run env peers pid).active = false →
      (run env peers pid).peersAfter = peers) := by
  rcases run_cases env peers pid with ⟨e, h⟩ | h
  · rw [h]
    exact ⟨fun hc => by simp at hc, fun _ => rfl⟩
  · rw [h]
    exact ⟨fun _ => ⟨mem_addPeer peers pid, not_mem_removePeer _ pid, rfl⟩,
           fun hc => by simp at hc⟩

/-- Handshake environment that reaches the active state and whose
message loop exits with a protocol error. -/
def activeEnv : RunEnv :=
  ⟨Msg.handshakeMsg [1], fun _ => Except.ok (), fun _ => Except.ok [2],
   Except.error SwapErr.serialOrAmountRegression⟩

/-- C8, witness: in `activeEnv` the session registers peer 7 while the
loop runs, deregisters it on exit and surfaces the loop error; in
`zeroAddrEnv` the handshake fails and the peer set stays untouched. -/
theorem claimC8_registration_witness :
    (7 ∈ (run activeEnv [5] 7).peersDuring ∧
      7 ∉ (run activeEnv [5] 7).peersAfter ∧
      (run activeEnv [5] 7).result = activeEnv.loopResult) ∧
    (run zeroAddrEnv [5] 7).peersAfter = [5] :=
  ⟨(claimC8_registration activeEnv [5] 7).1 (by decide),
   (claimC8_registration zeroAddrEnv [5] 7).2 (by decide)⟩

/-! ## Claim C10 -/

/-- C10: `verifyHandshake` returns the `ErrEmptyAddressInSignature`
error not only for a handshake message declaring the zero contract
address but also for every incoming message that is not a handshake
message at all (the failed type assertion), so a malformed handshake
message is indistinguishable from a zero-address one at the error
interface. -/
theorem claimC10_malformed (vc : List Nat → Except SwapErr Unit) (c : Cheque) :
    verifyHandshake vc (Msg.emitChequeMsg c) =
      Except.error SwapErr.emptyAddressInSignature ∧
    verifyHandshake vc Msg.errorMsg =
      Except.error SwapErr.emptyAddressInSignature ∧
    verifyHandshake vc (Msg.handshakeMsg zeroAddress) =
      Except.error SwapErr.emptyAddressInSignature ∧
    (∀ m : Msg, (∀ a, m ≠ Msg.handshakeMsg a) →
      verifyHandshake vc m = verifyHandshake vc (Msg.handshakeMsg zeroAddress)) := by
  refine ⟨rfl, rfl, by simp [verifyHandshake], ?_⟩
  intro m hm
  cases m with
  | handshakeMsg a => exact absurd rfl (hm a)
  | emitChequeMsg c2 => simp [verifyHandshake]
  | errorMsg => simp [verifyHandshake]

/-- C10, witness: the error-message case coincides with the zero-address
handshake case. -/
theorem claimC10_malformed_witness :
    verifyHandshake (fun _ => Except.ok ()) Msg.errorMsg =
      verifyHandshake (fun _ => Except.ok ()) (Msg.handshakeMsg zeroAddress) :=
  (claimC10_malformed (fun _ => Except.ok ()) newTestCheque).2.2.2 Msg.errorMsg
    fun _ h => Msg.noConfusion h

end Swarm
